import Mathlib

/-!
Verification development for the MOS repository (evolutionary meme population
plus a hierarchical thinking-strategy agent).

The Python sources `mos/meme.py`, `mos/network.py` and `mos/agent.py` are
shallowly embedded below.  Python floats are modelled by `ℚ` (the code only
stores and compares the random draws, never relies on float rounding), machine
randomness (`random.random`, `uuid.uuid4`, `np.random.*`, `random.randint`)
is passed in as explicit parameters, and raised exceptions are modelled with
`Except` / `Option` results.
-/

/-- A Python runtime value, as far as `mos/meme.py` inspects one:
`types.FunctionType` values, `dict`s, `str`s, `PIL.Image.Image`s (kept as
their pixel buffer), `torch.nn.Module`s (opaque parameter vector identified
by a tag), numbers, and `None`.  Function and module payloads are opaque:
the embedding never calls them, it passes them to uninterpreted parameters. -/
inductive PyVal where
  | func (fid : Nat)
  | pydict (entries : List (String × PyVal))
  | str (s : String)
  | image (pixels : List (List Int))
  | module (mid : Nat)
  | num (q : ℚ)
  | pynone

/-- `isinstance(content, types.FunctionType)` -/
def PyVal.isFunction : PyVal → Bool
  | .func _ => true
  | _ => false

/-- `isinstance(content, dict)` -/
def PyVal.isDict : PyVal → Bool
  | .pydict _ => true
  | _ => false

/-- `isinstance(content, str)` -/
def PyVal.isStr : PyVal → Bool
  | .str _ => true
  | _ => false

/-- `isinstance(content, Image.Image)` -/
def PyVal.isImage : PyVal → Bool
  | .image _ => true
  | _ => false

/-- `isinstance(content, nn.Module)` -/
def PyVal.isModule : PyVal → Bool
  | .module _ => true
  | _ => false

/-- The `Meme` objects of `mos/meme.py`.  `id` stands for the `uuid4` value
(stringification is dropped: the embedding keeps the identifier itself),
`metadata` is the string-to-string map the repository actually stores, and
`connections` maps meme identifiers to weights. -/
structure Meme where
  id : Nat
  content : PyVal
  content_type : String
  metadata : List (String × String)
  fitness : ℚ
  connections : List (Nat × ℚ)

/-- `Meme._validate_content`: the sequential `isinstance` checks of
`meme.py` lines 30-40.  `torchAvail` is `torch is not None` / `nn is not
None` (both are imported together, so one flag models both). -/
def validate_content (torchAvail : Bool) (content_type : String) (content : PyVal) :
    Except String Unit :=
  if content_type = "code" ∧ content.isFunction = false then
    .error "content must be function for type code"
  else if content_type = "data" ∧ content.isDict = false then
    .error "content must be dict for type data"
  else if content_type = "text" ∧ content.isStr = false then
    .error "content must be str for type text"
  else if content_type = "image" ∧ content.isImage = false then
    .error "content must be PIL.Image.Image for type image"
  else if content_type = "model" ∧ torchAvail = true ∧ content.isModule = false then
    .error "content must be torch.nn.Module for type model"
  else
    .ok ()

/-- `Meme.__init__`: `fid` models the fresh `uuid.uuid4()`, `ts` the
`datetime.datetime.utcnow().isoformat()` stamp used when no metadata is
given.  `metadata or {"created": ts}` falls back to the default both when
the argument is `None` and when it is an empty (falsy) dict. -/
def mkMeme (torchAvail : Bool) (fid : Nat) (content : PyVal) (content_type : String)
    (metadata : Option (List (String × String))) (ts : String) : Except String Meme :=
  let md := match metadata with
    | some m => if m.isEmpty then [("created", ts)] else m
    | none => [("created", ts)]
  match validate_content torchAvail content_type content with
  | .error e => .error e
  | .ok _ =>
      .ok { id := fid, content := content, content_type := content_type,
            metadata := md, fitness := 0, connections := [] }

/-- Uninterpreted surroundings of `Meme.execute`: whether torch is
importable, calling a `code` payload on the environment, `np.array` on a
PIL image, `torch.tensor` on the environment, and calling a model on a
tensor. -/
structure ExecEnv where
  torchAvail : Bool
  applyFunc : PyVal → Option PyVal → PyVal
  npArray : PyVal → PyVal
  tensorOf : PyVal → PyVal
  applyModel : PyVal → PyVal → PyVal

/-- `Meme.execute` (meme.py lines 42-52); `none` models Python's `None`
result, including the final `return None` fall-through. -/
def Meme.execute (E : ExecEnv) (m : Meme) (env : Option PyVal) : Option PyVal :=
  if m.content_type = "code" then some (E.applyFunc m.content env)
  else if m.content_type = "data" ∨ m.content_type = "text" then some m.content
  else if m.content_type = "image" then some (E.npArray m.content)
  else if m.content_type = "model" ∧ E.torchAvail = true then
    match env with
    | some e => some (E.applyModel m.content (E.tensorOf e))
    | none => none
  else none

/-- The random draws one `Meme.mutate` call consumes: `np.random.uniform(-1, 1)`
per dict key, `np.random.randint(0, len)` (the draw is uniform on the valid
index range, so it is kept reduced modulo the text length), the index of the
`np.random.choice` character, `np.random.randint(-10, 10)` per pixel, and the
opaque effect of the Gaussian parameter perturbation on a model payload. -/
structure MutDraws where
  dataNoise : String → ℚ
  textIdx : Nat
  charDraw : Nat
  imageNoise : Nat → Nat → Int
  modelPerturb : Nat → Nat

/-- The alphabet `np.random.choice(list("abcdefghijklmnopqrstuvwxyz "))`
draws from. -/
def mutation_alphabet : List Char := "abcdefghijklmnopqrstuvwxyz ".data

/-- `Meme.mutate` (meme.py lines 54-72).  For `code` and unknown content
types the method does nothing.  The non-matching payload cases inside each
typed branch are unreachable for validly constructed memes and are kept as
no-ops. -/
def Meme.mutate (torchAvail : Bool) (ρ : MutDraws) (m : Meme) : Meme :=
  if m.content_type = "data" then
    match m.content with
    | .pydict entries =>
        { m with content := .pydict (entries.map fun kv =>
            match kv.2 with
            | .num q => (kv.1, .num (q + ρ.dataNoise kv.1))
            | v => (kv.1, v)) }
    | _ => m
  else if m.content_type = "text" then
    match m.content with
    | .str s =>
        if s.isEmpty then m
        else
          let idx := ρ.textIdx % s.length
          let c := mutation_alphabet.getD (ρ.charDraw % mutation_alphabet.length) 'a'
          { m with content := .str (String.mk (s.data.take idx ++ c :: s.data.drop (idx + 1))) }
    | _ => m
  else if m.content_type = "image" then
    match m.content with
    | .image pixels =>
        { m with content := .image ((pixels.enum).map fun r =>
            (r.2.enum).map fun c => max 0 (min 255 (c.2 + ρ.imageNoise r.1 c.1))) }
    | _ => m
  else if m.content_type = "model" ∧ torchAvail = true then
    match m.content with
    | .module mid => { m with content := .module (ρ.modelPerturb mid) }
    | _ => m
  else m

/-- `Meme.replicate` (meme.py lines 74-78): `pickle.loads(pickle.dumps(content))`
deep-copies the payload — in the value model the copy is the same value.  The
fresh `uuid4` of the clone is `fid`; construction re-validates, so the result
is an `Except` like the constructor. -/
def Meme.replicate (torchAvail : Bool) (fid : Nat) (ts : String) (m : Meme) :
    Except String Meme :=
  match mkMeme torchAvail fid m.content m.content_type (some m.metadata) ts with
  | .error e => .error e
  | .ok nm => .ok { nm with connections := m.connections }

/-- The projection produced by `Meme.to_dict` (meme.py lines 80-87). -/
structure MemeDict where
  id : Nat
  content_type : String
  metadata : List (String × String)
  fitness : ℚ
  connections : List (Nat × ℚ)
deriving DecidableEq

/-- `Meme.to_dict`. -/
def Meme.to_dict (m : Meme) : MemeDict :=
  { id := m.id, content_type := m.content_type, metadata := m.metadata,
    fitness := m.fitness, connections := m.connections }

/-- `MemeNetwork.evolve` step 1 (network.py line 25-26): each meme in the
population receives a drawn fitness; `f i` is the `random.random()` draw for
the meme at position `i`. -/
def assign_fitness (f : Nat → ℚ) (pop : List Meme) : List Meme :=
  pop.enum.map fun p => { p.2 with fitness := f p.1 }

/-- `sorted(self.memes.values(), key=lambda m: m.fitness, reverse=True)`:
Python's sort is stable, so this is the stable descending insertion sort
(ties keep insertion order). -/
def sort_by_fitness (pop : List Meme) : List Meme :=
  pop.insertionSort fun a b => b.fitness ≤ a.fitness

/-- Rebuilding the population dict `{str(m.id): m for m in ...}`: one entry
per distinct identifier, in first-occurrence order. -/
def dedup_by_id : List Meme → List Meme
  | [] => []
  | m :: rest => m :: dedup_by_id (rest.filter fun x => x.id ≠ m.id)
termination_by l => l.length
decreasing_by
  simp only [List.length_cons]
  exact Nat.lt_succ_of_le (List.length_filter_le _ _)

/-- `MemeNetwork.evolve` (network.py lines 22-34).  `f` supplies the fitness
draws, `fresh i` the `uuid4` of the offspring of the `i`-th survivor, `ρ i`
that offspring's mutation draws, `ts` the timestamp a default-metadata
construction would use (never consulted: clones pass their parent's
metadata).  An `Except` result surfaces the constructor's potential
`TypeError` from `replicate`. -/
def evolve (torchAvail : Bool) (f : Nat → ℚ) (fresh : Nat → Nat) (ρ : Nat → MutDraws)
    (ts : String) (pop : List Meme) : Except String (List Meme) :=
  if pop.isEmpty then .ok pop
  else
    let sorted_memes := sort_by_fitness (assign_fitness f pop)
    let survivors := sorted_memes.take (max 1 (sorted_memes.length / 2))
    match survivors.enum.mapM (fun p =>
      (match Meme.replicate torchAvail (fresh p.1) ts p.2 with
      | .error e => .error e
      | .ok clone => .ok (Meme.mutate torchAvail (ρ p.1) clone) : Except String Meme)) with
    | .error e => .error e
    | .ok new_generation => .ok (dedup_by_id (survivors ++ new_generation))

/-- The fixed character set stripped by `normalize_text` (agent.py line 11):
`.,;:!?"'()-—[]`, plus the two curly braces. -/
def puncts : List Char := ".,;:!?\"\x27()-—[]\x7b\x7d".data

/-- Python's `str.lower()` for the alphabets this repository uses: ASCII
letters and the Russian Cyrillic block (А-Я and Ё). -/
def pyLower (c : Char) : Char :=
  if 65 ≤ c.toNat ∧ c.toNat ≤ 90 then Char.ofNat (c.toNat + 32)
  else if 1040 ≤ c.toNat ∧ c.toNat ≤ 1071 then Char.ofNat (c.toNat + 32)
  else if c.toNat = 1025 then Char.ofNat 1105
  else c

/-- `normalize_text` (agent.py lines 10-14): drop every character of the
fixed punctuation set, then lower-case. -/
def normalize_text (text : String) : String :=
  String.mk (((text.data).filter fun c => ¬ c ∈ puncts).map pyLower)

/-- Python's substring operator `needle in hay` on strings. -/
def substr_in (needle hay : String) : Bool :=
  decide (needle.data <:+: hay.data)

/-- `keyword_in_text` (agent.py lines 17-19). -/
def keyword_in_text (text : String) (keywords : List String) : Bool :=
  keywords.any fun kw => substr_in kw (normalize_text text)

/-- The `activation_conditions` dict of a `ThinkingStrategy`: each of the
three recognized keys may be present (`some`, possibly with an empty list)
or absent (`none`). -/
structure ActivationConditions where
  emotions : Option (List String)
  goals : Option (List String)
  keywords : Option (List String)
deriving DecidableEq

/-- Python dict truthiness of `activation_conditions` (`if
self.activation_conditions:`): at least one key present. -/
def ActivationConditions.truthy (c : ActivationConditions) : Bool :=
  c.emotions.isSome || c.goals.isSome || c.keywords.isSome

/-- The own fields of a `ThinkingStrategy` (agent.py lines 25-39), without
the `children` list, which the tree types below carry separately. -/
structure StratData where
  name : String
  level : Nat
  trigger_topics : List String
  action_plan : String
  activation_conditions : ActivationConditions
deriving DecidableEq

/-- `"emotions" in conditions and emotion not in conditions["emotions"]`. -/
def emotions_block (c : ActivationConditions) (emotion : String) : Bool :=
  match c.emotions with
  | some es => !(es.contains emotion)
  | none => false

/-- `"goals" in conditions and goal not in conditions["goals"]`. -/
def goals_block (c : ActivationConditions) (goal : String) : Bool :=
  match c.goals with
  | some gs => !(gs.contains goal)
  | none => false

/-- `"keywords" in conditions and not keyword_in_text(thought_text, ...)`. -/
def keywords_block (c : ActivationConditions) (thought_text : String) : Bool :=
  match c.keywords with
  | some ks => !(keyword_in_text thought_text ks)
  | none => false

/-- `ThinkingStrategy.is_applicable` (agent.py lines 41-54): the early
`return False` chain, condition by condition. -/
def is_applicable (s : StratData) (emotion goal thought_text : String) (energy : Int) : Bool :=
  if decide (s.level = 1) && decide (energy < 20) then false
  else if s.activation_conditions.truthy && emotions_block s.activation_conditions emotion then
    false
  else if s.activation_conditions.truthy && goals_block s.activation_conditions goal then
    false
  else if s.activation_conditions.truthy && keywords_block s.activation_conditions thought_text then
    false
  else if !s.trigger_topics.isEmpty && !(keyword_in_text thought_text s.trigger_topics) then
    false
  else true

/-- A `ThinkingStrategy` object together with its `children` list. -/
inductive StratTree where
  | node (data : StratData) (children : List StratTree)

/-- The strategy's own fields. -/
def StratTree.data : StratTree → StratData
  | .node d _ => d

/-- The strategy's `children`. -/
def StratTree.children : StratTree → List StratTree
  | .node _ c => c

mutual
/-- The inner `check` of `UnifiedMemeticAgent.analyze_thought` (agent.py
lines 177-181): append the strategy if applicable and only then recurse
into its children. -/
def check_strategy (em gl th : String) (en : Int) : StratTree → List StratData
  | .node d cs =>
      if is_applicable d em gl th en then d :: check_forest em gl th en cs else []

/-- The recursion of `check` over a list of children (or over the roots of
`self.strategy_tree`). -/
def check_forest (em gl th : String) (en : Int) : List StratTree → List StratData
  | [] => []
  | t :: ts => check_strategy em gl th en t ++ check_forest em gl th en ts
end

/-- `UnifiedMemeticAgent.analyze_thought` (agent.py lines 174-185): run
`check` over every root of the strategy tree with the agent's current
emotion, goal and energy. -/
def analyze_thought (emotion current_goal : String) (energy : Int)
    (tree : List StratTree) (thought : String) : List StratData :=
  check_forest emotion current_goal thought energy tree

/-- One `{"uses": _, "success": _, "fail": _}` counter record. -/
structure StratStats where
  uses : Nat
  success : Nat
  fail : Nat
deriving DecidableEq

/-- One element of the `results` list built by `think` (agent.py lines
152-157). -/
structure ActionResult where
  strategy : String
  action : String
  energy_cost : Nat
  triggered_topics : List String
deriving DecidableEq

/-- The record returned by `think` (agent.py lines 167-172). -/
structure ThinkResult where
  thought : String
  status : String
  actions : List ActionResult
  remaining_energy : Int
deriving DecidableEq

/-- The per-strategy result record of `think`:
`{"strategy": name, "action": plan, "energy_cost": level * 2,
"triggered_topics": [t for t in topics if keyword_in_text(thought, [t])]}`. -/
def action_of (thought : String) (s : StratData) : ActionResult :=
  { strategy := s.name, action := s.action_plan, energy_cost := s.level * 2,
    triggered_topics := s.trigger_topics.filter fun t => keyword_in_text thought [t] }

/-- The body of `think`'s `for strategy in applicable` loop.  The statistics
dict is modelled as a total map (the `if name not in ...: init zeros` line
materializes the default the map already yields).  The success test
`any(keyword_in_text(thought, [g]) for g in goals)` reads only loop-invariant
state, so it is evaluated once and passed in as `success_flag`. -/
def think_loop (success_flag : Bool) (thought : String) :
    List StratData → (String → StratStats) → List ActionResult × (String → StratStats)
  | [], stats => ([], stats)
  | s :: rest, stats =>
      let st := stats s.name
      let st2 :=
        if success_flag then
          { st with uses := st.uses + 1, success := st.success + 1 }
        else
          { st with uses := st.uses + 1, fail := st.fail + 1 }
      let stats2 : String → StratStats := fun k => if k = s.name then st2 else stats k
      let out := think_loop success_flag thought rest stats2
      (action_of thought s :: out.1, out.2)

/-- The agent-state fields `think` reads. -/
structure AgentState where
  emotion : String
  current_goal : String
  energy : Int
deriving DecidableEq

/-- `UnifiedMemeticAgent.think` (agent.py lines 141-172).  `drop` is the
`random.randint(1, 3)` draw; persistence (`save_to_file`, `save_stats`) and
the appended memory/log entries are outside the returned record and the
statistics map, which the theorems are about. -/
def think (st : AgentState) (goals : List String) (tree : List StratTree)
    (stats : String → StratStats) (drop : Int) (thought : String) :
    ThinkResult × (String → StratStats) :=
  let energy2 : Int := max 0 (st.energy - drop)
  let applicable := analyze_thought st.emotion st.current_goal energy2 tree thought
  let success_flag := goals.any fun g => keyword_in_text thought [g]
  let out := think_loop success_flag thought applicable stats
  ({ thought := thought,
     status := if out.1.isEmpty then "NO_STRATEGY_FOUND" else "PROCESSED",
     actions := out.1,
     remaining_energy := energy2 }, out.2)

/-- The `by_level` grouping of `build_strategy_hierarchy` (agent.py lines
191-193): the positions (in input order) of the strategies at a given
level.  Positions stand for the strategy objects, so that two structurally
equal strategies stay distinguishable, as Python objects are. -/
def by_level (ss : List StratData) (lvl : Nat) : List Nat :=
  (List.range ss.length).filter fun i => ((ss.get? i).map StratData.level) = some lvl

/-- `max(by_level.keys())` for a non-empty input (the caller guards
emptiness): the maximum level present. -/
def max_level (ss : List StratData) : Nat :=
  (ss.map StratData.level).foldl max 0

/-- The tree produced by `build_strategy_hierarchy`, by position: the root
positions (`self.strategy_tree`) and the `(parent, child)` pairs appended
by the level loop, in append order. -/
structure Hierarchy where
  roots : List Nat
  child_pairs : List (Nat × Nat)
deriving DecidableEq

/-- The `children` list of the strategy at position `p` after the build. -/
def Hierarchy.children_of (h : Hierarchy) (p : Nat) : List Nat :=
  (h.child_pairs.filter fun q => q.1 = p).map fun q => q.2

/-- `UnifiedMemeticAgent.build_strategy_hierarchy` (agent.py lines 187-201).
Children are recomputed from scratch (the source first sets every
`s.children = []`).  On the empty input `max(by_level.keys())` raises
`ValueError`, modelled by `none`.  For each level `lvl` from 2 to the
maximum, every strategy at `lvl` is appended to the children of
`next((p for p in by_level.get(lvl - 1, []) if p), None)` — strategy
objects are always truthy, so that is the first level-`lvl - 1` strategy,
and no pair is produced when that level is empty. -/
def build_strategy_hierarchy (ss : List StratData) : Option Hierarchy :=
  if ss.isEmpty then none
  else
    some { roots := by_level ss 1,
           child_pairs := (List.range' 2 (max_level ss - 1)).flatMap fun lvl =>
             (by_level ss lvl).filterMap fun i =>
               ((by_level ss (lvl - 1)).head?).map fun p => (p, i) }

/-- `UnifiedMemeticAgent.find_strategy_by_name` (agent.py lines 228-232),
over the flattened strategy list `get_all_strategies()`. -/
def find_strategy_by_name (all : List StratData) (n : String) : Option StratData :=
  all.find? fun s => s.name = n

/-- The strategy synthesized inside `evolve_strategies` (agent.py lines
209-221); `ver` is the `random.randint(2, 99)` version tag.  The new
`activation_conditions` dict carries all three keys, copied from the
original with `["рост", "обучение"]` appended to the keywords. -/
def mutate_strategy (ver : Nat) (orig : StratData) : StratData :=
  { name := orig.name ++ " v" ++ toString ver,
    level := min (orig.level + 1) 5,
    trigger_topics := orig.trigger_topics,
    action_plan := orig.action_plan ++ " (эволюционировавший)",
    activation_conditions :=
      { emotions := some (orig.activation_conditions.emotions.getD []),
        goals := some (orig.activation_conditions.goals.getD []),
        keywords := some ((orig.activation_conditions.keywords.getD []) ++
          ["рост", "обучение"]) } }

/-- The `mutated` list accumulated by `UnifiedMemeticAgent.evolve_strategies`
(agent.py lines 203-223): one synthesized strategy per statistics entry
whose counters pass `success > fail and uses >= 3` and whose name resolves
in the current strategy set; `stats_items` is `self.strategy_stats.items()`
and `all` is `self.get_all_strategies()`. -/
def evolve_strategies_new (ver : String → Nat) (stats_items : List (String × StratStats))
    (all : List StratData) : List StratData :=
  stats_items.filterMap fun p =>
    if p.2.success > p.2.fail ∧ p.2.uses ≥ 3 then
      (find_strategy_by_name all p.1).map (mutate_strategy (ver p.1))
    else none

/-- `evolve_strategies` in full (agent.py lines 203-226): the synthesized
strategies, and — when any exist — the hierarchy rebuilt from the existing
strategies plus the new ones (`none` in the second component means no
rebuild happened). -/
def evolve_strategies (ver : String → Nat) (stats_items : List (String × StratStats))
    (all : List StratData) : List StratData × Option (Option Hierarchy) :=
  let mutated := evolve_strategies_new ver stats_items all
  (mutated, if mutated.isEmpty then none else some (build_strategy_hierarchy (all ++ mutated)))

/-- Concrete text meme used to instantiate the replication theorem. -/
def meme_ex : Meme :=
  { id := 0, content := .str "hi", content_type := "text",
    metadata := [("created", "t0")], fitness := 5, connections := [(2, 1)] }

/-- A small valid population for instantiating the evolution theorem. -/
def pop_ex : List Meme :=
  [meme_ex,
   { id := 1, content := .str "ab", content_type := "text",
     metadata := [("created", "t1")], fitness := 0, connections := [] },
   { id := 2, content := .pydict [("x", .num 3)], content_type := "data",
     metadata := [("created", "t2")], fitness := 0, connections := [] }]

/-- Mutation draws that add nothing, for concrete evaluation. -/
def draws_ex : MutDraws :=
  { dataNoise := fun _ => 0, textIdx := 0, charDraw := 0,
    imageNoise := fun _ _ => 0, modelPerturb := fun m => m }

/-- Empty activation conditions (`activation_conditions or {}` with no keys). -/
def no_conds : ActivationConditions := { emotions := none, goals := none, keywords := none }

/-- The `[L1:"A", L2:"B", L2:"C"]` scenario of the specification. -/
def strat_abc : List StratData :=
  [{ name := "A", level := 1, trigger_topics := [], action_plan := "a",
     activation_conditions := no_conds },
   { name := "B", level := 2, trigger_topics := [], action_plan := "b",
     activation_conditions := no_conds },
   { name := "C", level := 2, trigger_topics := [], action_plan := "c",
     activation_conditions := no_conds }]

/-- A bare strategy with no activation conditions and no trigger topics. -/
def strat_b (lvl : Nat) : StratData :=
  { name := "b", level := lvl, trigger_topics := [], action_plan := "p",
    activation_conditions := no_conds }

/-- A strategy with statistics `uses = 3, success = 2, fail = 1`, used to
instantiate the strategy-evolution theorem. -/
def strat_s : StratData :=
  { name := "s", level := 2, trigger_topics := ["goal"], action_plan := "plan",
    activation_conditions := { emotions := some ["calm"], goals := none,
                               keywords := some ["kw"] } }

/-- Validation fails exactly on the five typed mismatches (helper shared by
several theorems below). -/
lemma validate_content_error_iff (t : Bool) (ct : String) (c : PyVal) :
    (∃ e, validate_content t ct c = .error e) ↔
      ((ct = "code" ∧ c.isFunction = false) ∨ (ct = "data" ∧ c.isDict = false) ∨
       (ct = "text" ∧ c.isStr = false) ∨ (ct = "image" ∧ c.isImage = false) ∨
       (ct = "model" ∧ t = true ∧ c.isModule = false)) := by
  unfold validate_content
  split_ifs with h1 h2 h3 h4 h5 <;> simp_all

/-- A successful construction stores the payload unchanged (helper). -/
lemma mkMeme_ok_fields (t : Bool) (fid : Nat) (c : PyVal) (ct : String)
    (md : Option (List (String × String))) (ts : String) (m : Meme)
    (h : mkMeme t fid c ct md ts = .ok m) :
    m.id = fid ∧ m.content = c ∧ m.content_type = ct ∧ m.fitness = 0 ∧
      m.connections = [] := by
  unfold mkMeme at h
  cases hv : validate_content t ct c with
  | error e => rw [hv] at h; cases h
  | ok u => rw [hv] at h; cases h; simp

/-- Construction succeeds iff validation does (helper). -/
lemma mkMeme_isOk_iff (t : Bool) (fid : Nat) (c : PyVal) (ct : String)
    (md : Option (List (String × String))) (ts : String) :
    (∃ m, mkMeme t fid c ct md ts = .ok m) ↔ validate_content t ct c = .ok () := by
  unfold mkMeme
  cases hv : validate_content t ct c with
  | error e => simp
  | ok u => cases u; simp

/-- C8: Meme construction raises a `TypeError` if and only if the payload
type mismatches the declared content type for the five known kinds
(`code` needs a function, `data` a dict, `text` a string, `image` a PIL
image, `model` an `nn.Module`), and when torch is unavailable the `model`
validation is skipped entirely; a successful construction never coerces
the payload. -/
theorem meme_validation_iff_mismatch (t : Bool) (fid : Nat) (c : PyVal) (ct : String)
    (md : Option (List (String × String))) (ts : String) :
    ((∃ e, mkMeme t fid c ct md ts = .error e) ↔
      ((ct = "code" ∧ c.isFunction = false) ∨ (ct = "data" ∧ c.isDict = false) ∨
       (ct = "text" ∧ c.isStr = false) ∨ (ct = "image" ∧ c.isImage = false) ∨
       (ct = "model" ∧ t = true ∧ c.isModule = false))) ∧
    (∀ m, mkMeme t fid c ct md ts = .ok m → m.content = c ∧ m.content_type = ct) := by
  constructor
  · rw [← validate_content_error_iff t ct c]
    unfold mkMeme
    cases hv : validate_content t ct c with
    | error e => simp
    | ok u => cases u; simp
  · intro m h
    have := mkMeme_ok_fields t fid c ct md ts m h
    exact ⟨this.2.1, this.2.2.1⟩

/-- Closed instance of the construction theorem: building a `text` meme
from a dict payload fails, and a well-typed construction stores its
payload unchanged. -/
theorem meme_validation_iff_mismatch_witness :
    (∃ e, mkMeme true 0 (.pydict []) "text" none "ts" = .error e) ∧
    (∀ m, mkMeme true 0 (.str "s") "text" none "ts" = .ok m →
      m.content = .str "s" ∧ m.content_type = "text") :=
  ⟨(meme_validation_iff_mismatch true 0 (.pydict []) "text" none "ts").1.mpr
      (by simp [PyVal.isStr]),
   (meme_validation_iff_mismatch true 0 (.str "s") "text" none "ts").2⟩

/-- C10: constructing a Meme whose `content_type` is none of the five known
kinds succeeds for every payload, and on such a meme `execute` returns
`None` while `mutate` leaves the content unchanged. -/
theorem unknown_content_type_behaviour (t t2 : Bool) (fid : Nat) (c : PyVal) (ct : String)
    (md : Option (List (String × String))) (ts : String) (E : ExecEnv) (ρ : MutDraws)
    (env : Option PyVal)
    (h : ct ∉ (["code", "data", "text", "image", "model"] : List String)) :
    ∃ m, mkMeme t fid c ct md ts = .ok m ∧
      Meme.execute E m env = none ∧
      (Meme.mutate t2 ρ m).content = m.content := by
  simp only [List.mem_cons, List.not_mem_nil, or_false, not_or] at h
  obtain ⟨hcode, hdata, htext, himage, hmodel⟩ := h
  have hok : validate_content t ct c = .ok () := by
    unfold validate_content
    split_ifs with h1 h2 h3 h4 h5 <;> first
      | rfl
      | (exact absurd h1.1 hcode) | (exact absurd h2.1 hdata)
      | (exact absurd h3.1 htext) | (exact absurd h4.1 himage)
      | (exact absurd h5.1 hmodel)
  obtain ⟨m, hm⟩ := (mkMeme_isOk_iff t fid c ct md ts).mpr hok
  have hct : m.content_type = ct := (mkMeme_ok_fields t fid c ct md ts m hm).2.2.1
  refine ⟨m, hm, ?_, ?_⟩
  · simp [Meme.execute, hct, hcode, hdata, htext, himage, hmodel]
  · simp [Meme.mutate, hct, hcode, hdata, htext, himage, hmodel]

/-- Closed instance: a `"audio"`-typed meme is accepted with a `None`
payload, executes to `None`, and mutation does not change its content. -/
theorem unknown_content_type_behaviour_witness :
    ∃ m, mkMeme true 0 .pynone "audio" none "ts" = .ok m ∧
      Meme.execute
        { torchAvail := true, applyFunc := fun _ _ => .pynone, npArray := id,
          tensorOf := id, applyModel := fun _ _ => .pynone } m none = none ∧
      (Meme.mutate true draws_ex m).content = m.content :=
  unknown_content_type_behaviour true true 0 .pynone "audio" none "ts"
    { torchAvail := true, applyFunc := fun _ _ => .pynone, npArray := id,
      tensorOf := id, applyModel := fun _ _ => .pynone } draws_ex none (by decide)

/-- For a meme whose stored content passes validation, `replicate` succeeds
and returns exactly the clone record (helper shared with the evolution
theorem). -/
lemma replicate_eq_ok (t : Bool) (fid : Nat) (ts : String) (m : Meme)
    (hv : validate_content t m.content_type m.content = .ok ())
    (hmd : m.metadata ≠ []) :
    Meme.replicate t fid ts m =
      .ok { id := fid, content := m.content, content_type := m.content_type,
            metadata := m.metadata, fitness := 0, connections := m.connections } := by
  have hempty : m.metadata.isEmpty = false := by
    cases hmm : m.metadata with
    | nil => exact absurd hmm hmd
    | cons a l => rfl
  unfold Meme.replicate mkMeme
  rw [hv]
  simp [hempty]

/-- C6: `replicate` produces a meme with the fresh identity, default
fitness 0, a structurally equal copy of the content, and metadata and
connections copied by value; hence its `to_dict` projection minus the
`id` and `fitness` fields equals the source meme's. -/
theorem replicate_projection (t : Bool) (fid : Nat) (ts : String) (m : Meme)
    (hv : validate_content t m.content_type m.content = .ok ())
    (hmd : m.metadata ≠ [])
    (hfid : fid ≠ m.id) :
    ∃ r, Meme.replicate t fid ts m = .ok r ∧ r.id ≠ m.id ∧ r.fitness = 0 ∧
      r.content = m.content ∧
      (r.to_dict.content_type, r.to_dict.metadata, r.to_dict.connections) =
        (m.to_dict.content_type, m.to_dict.metadata, m.to_dict.connections) := by
  refine ⟨_, replicate_eq_ok t fid ts m hv hmd, hfid, rfl, rfl, rfl⟩

/-- Closed instance: replicating the fixture text meme under a fresh id. -/
theorem replicate_projection_witness :
    ∃ r, Meme.replicate true 1 "ts" meme_ex = .ok r ∧ r.id ≠ meme_ex.id ∧ r.fitness = 0 ∧
      r.content = meme_ex.content ∧
      (r.to_dict.content_type, r.to_dict.metadata, r.to_dict.connections) =
        (meme_ex.to_dict.content_type, meme_ex.to_dict.metadata,
          meme_ex.to_dict.connections) :=
  replicate_projection true 1 "ts" meme_ex (by rfl) (by simp [meme_ex]) (by simp [meme_ex])

/-- Rebuilding a dict never grows the entry list (helper). -/
lemma dedup_by_id_length_le : ∀ l : List Meme, (dedup_by_id l).length ≤ l.length
  | [] => by simp [dedup_by_id]
  | m :: rest => by
      rw [dedup_by_id]
      simp only [List.length_cons]
      have h1 := dedup_by_id_length_le (rest.filter fun x => x.id ≠ m.id)
      have h2 := List.length_filter_le (fun x => decide (x.id ≠ m.id)) rest
      omega
termination_by l => l.length
decreasing_by
  simp only [List.length_cons]
  exact Nat.lt_succ_of_le (List.length_filter_le _ _)

/-- A prefix with pairwise distinct identifiers survives the dict rebuild
in full (helper). -/
lemma dedup_by_id_append_length_ge :
    ∀ (A B : List Meme), ((A.map Meme.id).Nodup) →
      A.length ≤ (dedup_by_id (A ++ B)).length
  | [], _, _ => by simp
  | a :: A, B, h => by
      rw [List.cons_append, dedup_by_id]
      simp only [List.length_cons]
      rw [List.map_cons, List.nodup_cons] at h
      have hfA : A.filter (fun x => x.id ≠ a.id) = A := by
        apply List.filter_eq_self.mpr
        intro x hx
        simp only [decide_eq_true_eq]
        intro hEq
        exact h.1 (hEq ▸ List.mem_map_of_mem Meme.id hx)
      rw [List.filter_append, hfA]
      have := dedup_by_id_append_length_ge A (B.filter fun x => x.id ≠ a.id) h.2
      omega

/-- Fitness assignment only touches the `fitness` field (helper). -/
lemma assign_fitness_map_id (f : Nat → ℚ) (pop : List Meme) :
    (assign_fitness f pop).map Meme.id = pop.map Meme.id := by
  unfold assign_fitness
  rw [List.map_map]
  rw [show (Meme.id ∘ fun p : Nat × Meme => { p.2 with fitness := f p.1 }) =
      (Meme.id ∘ Prod.snd) from rfl]
  rw [← List.map_map, List.enum_map_snd]

/-- Fitness assignment preserves the population size (helper). -/
lemma assign_fitness_length (f : Nat → ℚ) (pop : List Meme) :
    (assign_fitness f pop).length = pop.length := by
  simp [assign_fitness, List.enum_length]

/-- Each fitness-assigned meme comes from a population member with the same
content, content type and metadata (helper). -/
lemma mem_assign_fitness {f : Nat → ℚ} {pop : List Meme} {x : Meme}
    (h : x ∈ assign_fitness f pop) :
    ∃ m, m ∈ pop ∧ x.content = m.content ∧ x.content_type = m.content_type ∧
      x.metadata = m.metadata := by
  unfold assign_fitness at h
  rw [List.mem_map] at h
  obtain ⟨p, hp, rfl⟩ := h
  have := List.mem_enum_iff_getElem?.mp hp
  exact ⟨p.2, List.getElem?_mem this, rfl, rfl, rfl⟩

/-- A pointwise-successful `Except` traversal succeeds and preserves length
(helper). -/
lemma mapM_except_ok {α β : Type} (g : α → Except String β) :
    ∀ l : List α, (∀ x ∈ l, ∃ y, g x = .ok y) →
      ∃ res : List β, l.mapM g = .ok res ∧ res.length = l.length
  | [], _ => ⟨[], by rw [List.mapM_nil]; rfl, rfl⟩
  | a :: l, h => by
      obtain ⟨y, hy⟩ := h a (List.mem_cons_self a l)
      obtain ⟨res, hres, hlen⟩ := mapM_except_ok g l fun x hx => h x (List.mem_cons_of_mem a hx)
      refine ⟨y :: res, ?_, by simp [hlen]⟩
      rw [List.mapM_cons, hy, hres]
      rfl

/-- Replication succeeds on any meme whose stored content validates
(helper). -/
lemma replicate_isOk (t : Bool) (fid : Nat) (ts : String) (m : Meme)
    (hv : validate_content t m.content_type m.content = .ok ()) :
    ∃ r, Meme.replicate t fid ts m = .ok r := by
  obtain ⟨nm, hnm⟩ := (mkMeme_isOk_iff t fid m.content m.content_type (some m.metadata) ts).mpr hv
  exact ⟨_, by unfold Meme.replicate; rw [hnm]⟩

/-- C1: one `evolve()` call on a non-empty population of size `N` keeps the
top `max(1, N / 2)` memes of the stable descending fitness sort as
survivors, produces one replicated-then-mutated offspring per survivor, and
replaces the population with survivors plus offspring keyed by identity, so
the new size is between `max(1, N / 2)` and `2 * max(1, N / 2)`; on the
empty population `evolve()` is a no-op. -/
theorem evolve_generation_step (torch : Bool) (f : Nat → ℚ) (fresh : Nat → Nat)
    (ρ : Nat → MutDraws) (ts : String) (pop : List Meme)
    (hvalid : ∀ m ∈ pop, validate_content torch m.content_type m.content = .ok ())
    (hids : (pop.map Meme.id).Nodup) (hne : pop ≠ []) :
    evolve torch f fresh ρ ts [] = .ok [] ∧
    ∃ offspring : List Meme,
      evolve torch f fresh ρ ts pop =
        .ok (dedup_by_id ((sort_by_fitness (assign_fitness f pop)).take
              (max 1 (pop.length / 2)) ++ offspring)) ∧
      ((sort_by_fitness (assign_fitness f pop)).take (max 1 (pop.length / 2))).length =
        max 1 (pop.length / 2) ∧
      offspring.length = max 1 (pop.length / 2) ∧
      max 1 (pop.length / 2) ≤
        (dedup_by_id ((sort_by_fitness (assign_fitness f pop)).take
          (max 1 (pop.length / 2)) ++ offspring)).length ∧
      (dedup_by_id ((sort_by_fitness (assign_fitness f pop)).take
          (max 1 (pop.length / 2)) ++ offspring)).length ≤
        2 * max 1 (pop.length / 2) := by
  have hN : 0 < pop.length := List.length_pos.mpr hne
  have hsl : (sort_by_fitness (assign_fitness f pop)).length = pop.length := by
    unfold sort_by_fitness
    rw [List.length_insertionSort, assign_fitness_length]
  have hsN : max 1 (pop.length / 2) ≤ pop.length := by omega
  set s := max 1 (pop.length / 2) with hs
  set survivors := (sort_by_fitness (assign_fitness f pop)).take s with hsurv
  have hslen : survivors.length = s := by
    rw [hsurv, List.length_take, hsl]
    omega
  have hperm : List.Perm (sort_by_fitness (assign_fitness f pop)) (assign_fitness f pop) := by
    unfold sort_by_fitness
    exact List.perm_insertionSort _ _
  -- every survivor still validates
  have hmem_valid : ∀ x ∈ survivors,
      validate_content torch x.content_type x.content = .ok () := by
    intro x hx
    have hx2 : x ∈ assign_fitness f pop :=
      (hperm.mem_iff).mp (List.take_subset s _ hx)
    obtain ⟨m, hm, hc, hct, _⟩ := mem_assign_fitness hx2
    rw [hct, hc]
    exact hvalid m hm
  -- the offspring traversal succeeds
  obtain ⟨offspring, hmapM, hlen⟩ :=
    mapM_except_ok
      (fun p : Nat × Meme =>
        (match Meme.replicate torch (fresh p.1) ts p.2 with
        | .error e => .error e
        | .ok clone => .ok (Meme.mutate torch (ρ p.1) clone) : Except String Meme))
      survivors.enum
      (by
        intro p hp
        have hpmem : p.2 ∈ survivors :=
          List.getElem?_mem (List.mem_enum_iff_getElem?.mp hp)
        obtain ⟨r, hr⟩ := replicate_isOk torch (fresh p.1) ts p.2 (hmem_valid p.2 hpmem)
        exact ⟨Meme.mutate torch (ρ p.1) r, by simp only [hr]⟩)
  have hlen2 : offspring.length = s := by
    rw [hlen, List.enum_length, hslen]
  have hEmpty : pop.isEmpty = false := by
    cases pop with
    | nil => exact absurd rfl hne
    | cons a l => rfl
  have hidsS : (survivors.map Meme.id).Nodup := by
    have h1 : ((assign_fitness f pop).map Meme.id).Nodup := by
      rw [assign_fitness_map_id]
      exact hids
    have h2 : ((sort_by_fitness (assign_fitness f pop)).map Meme.id).Nodup :=
      ((hperm.map Meme.id).nodup_iff).mpr h1
    exact h2.sublist ((List.take_sublist s _).map Meme.id)
  constructor
  · rfl
  · refine ⟨offspring, ?_, hslen, hlen2, ?_, ?_⟩
    · unfold evolve
      rw [hEmpty]
      simp only [Bool.false_eq_true, if_false, hsl, ← hs, ← hsurv, hmapM]
    · have := dedup_by_id_append_length_ge survivors offspring hidsS
      omega
    · have h1 := dedup_by_id_length_le (survivors ++ offspring)
      rw [List.length_append, hslen, hlen2] at h1
      omega

/-- Closed instance of the generation step on a concrete 3-meme population. -/
theorem evolve_generation_step_witness :
    evolve true (fun i => (i : ℚ)) (fun i => 10 + i) (fun _ => draws_ex) "ts" [] = .ok [] ∧
    ∃ offspring : List Meme,
      evolve true (fun i => (i : ℚ)) (fun i => 10 + i) (fun _ => draws_ex) "ts" pop_ex =
        .ok (dedup_by_id ((sort_by_fitness (assign_fitness (fun i => (i : ℚ)) pop_ex)).take
              (max 1 (pop_ex.length / 2)) ++ offspring)) ∧
      ((sort_by_fitness (assign_fitness (fun i => (i : ℚ)) pop_ex)).take
          (max 1 (pop_ex.length / 2))).length = max 1 (pop_ex.length / 2) ∧
      offspring.length = max 1 (pop_ex.length / 2) ∧
      max 1 (pop_ex.length / 2) ≤
        (dedup_by_id ((sort_by_fitness (assign_fitness (fun i => (i : ℚ)) pop_ex)).take
          (max 1 (pop_ex.length / 2)) ++ offspring)).length ∧
      (dedup_by_id ((sort_by_fitness (assign_fitness (fun i => (i : ℚ)) pop_ex)).take
          (max 1 (pop_ex.length / 2)) ++ offspring)).length ≤
        2 * max 1 (pop_ex.length / 2) :=
  evolve_generation_step true (fun i => (i : ℚ)) (fun i => 10 + i) (fun _ => draws_ex)
    "ts" pop_ex
    (by intro m hm; fin_cases hm <;> rfl)
    (by decide)
    (by simp [pop_ex])

/-- C4: the low-energy gate (`level == 1 and energy < 20`) makes a strategy
inapplicable and never applies to other levels; each present activation
condition and a non-empty trigger-topic list is a conjunctive requirement;
a strategy with no conditions and no trigger topics is applicable exactly
when the level-1 energy gate permits. -/
theorem is_applicable_spec (s : StratData) (em gl th : String) (en : Int) :
    (s.level = 1 → en < 20 → is_applicable s em gl th en = false) ∧
    (s.level ≠ 1 → ∀ en2 : Int, is_applicable s em gl th en = is_applicable s em gl th en2) ∧
    (∀ es, s.activation_conditions.emotions = some es → em ∉ es →
      is_applicable s em gl th en = false) ∧
    (∀ gs, s.activation_conditions.goals = some gs → gl ∉ gs →
      is_applicable s em gl th en = false) ∧
    (∀ ks, s.activation_conditions.keywords = some ks → keyword_in_text th ks = false →
      is_applicable s em gl th en = false) ∧
    (s.trigger_topics ≠ [] → keyword_in_text th s.trigger_topics = false →
      is_applicable s em gl th en = false) ∧
    (s.activation_conditions = no_conds → s.trigger_topics = [] →
      (is_applicable s em gl th en = true ↔ ¬(s.level = 1 ∧ en < 20))) := by
  refine ⟨?_, ?_, ?_, ?_, ?_, ?_, ?_⟩
  · intro h1 h2
    simp [is_applicable, h1, h2]
  · intro h1 en2
    simp [is_applicable, h1]
  · intro es hes hem
    have htruthy : s.activation_conditions.truthy = true := by
      simp [ActivationConditions.truthy, hes]
    have hblock : emotions_block s.activation_conditions em = true := by
      simp [emotions_block, hes]
      exact hem
    simp [is_applicable, htruthy, hblock]
  · intro gs hgs hgl
    have htruthy : s.activation_conditions.truthy = true := by
      simp [ActivationConditions.truthy, hgs]
    have hblock : goals_block s.activation_conditions gl = true := by
      simp [goals_block, hgs]
      exact hgl
    simp [is_applicable, htruthy, hblock]
  · intro ks hks hkw
    have htruthy : s.activation_conditions.truthy = true := by
      simp [ActivationConditions.truthy, hks]
    have hblock : keywords_block s.activation_conditions th = true := by
      simp [keywords_block, hks, hkw]
    simp [is_applicable, htruthy, hblock]
  · intro htopics hkw
    have hne : s.trigger_topics.isEmpty = false := by
      cases hmm : s.trigger_topics with
      | nil => exact absurd hmm htopics
      | cons a l => rfl
    simp [is_applicable, hne, hkw]
  · intro hconds htopics
    simp [is_applicable, hconds, htopics, no_conds, ActivationConditions.truthy,
      emotions_block, goals_block, keywords_block]
    tauto

/-- Closed instances of the applicability contract: the level-1 energy gate,
its absence at level 2, and the no-condition strategy. -/
theorem is_applicable_spec_witness :
    is_applicable (strat_b 1) "e" "g" "t" 5 = false ∧
    (is_applicable (strat_b 2) "e" "g" "t" 5 = is_applicable (strat_b 2) "e" "g" "t" 90) ∧
    (is_applicable (strat_b 1) "e" "g" "t" 90 = true ↔
      ¬((strat_b 1).level = 1 ∧ (90 : Int) < 20)) :=
  ⟨(is_applicable_spec (strat_b 1) "e" "g" "t" 5).1 rfl (by decide),
   (is_applicable_spec (strat_b 2) "e" "g" "t" 5).2.1 (by decide) 90,
   (is_applicable_spec (strat_b 1) "e" "g" "t" 90).2.2.2.2.2.2 rfl rfl⟩

/-- Membership in a forest traversal decomposes over the roots (helper). -/
lemma mem_check_forest {em gl th : String} {en : Int} {x : StratData} :
    ∀ {l : List StratTree},
      (x ∈ check_forest em gl th en l ↔ ∃ t ∈ l, x ∈ check_strategy em gl th en t)
  | [] => by simp [check_forest]
  | t :: ts => by
      simp only [check_forest, List.mem_append, mem_check_forest (l := ts), List.mem_cons]
      constructor
      · rintro (h | ⟨u, hu, hx⟩)
        · exact ⟨t, Or.inl rfl, h⟩
        · exact ⟨u, Or.inr hu, hx⟩
      · rintro ⟨u, rfl | hu, hx⟩
        · exact Or.inl hx
        · exact Or.inr ⟨u, hu, hx⟩

/-- C7: the depth-first traversal prunes at inapplicable nodes — the
subtree of an inapplicable strategy contributes nothing (so none of its
descendants is reported), everything reported from a subtree requires its
root to be applicable and comes from the node itself or a child's subtree,
and the list `analyze_thought` returns is exactly the union of the root
subtrees' contributions. -/
theorem analyze_thought_pruning (em gl th : String) (en : Int) (d : StratData)
    (cs : List StratTree) :
    (is_applicable d em gl th en = false → check_strategy em gl th en (.node d cs) = []) ∧
    (∀ x, x ∈ check_strategy em gl th en (.node d cs) →
      is_applicable d em gl th en = true ∧
        (x = d ∨ ∃ c ∈ cs, x ∈ check_strategy em gl th en c)) ∧
    (∀ (tree : List StratTree) (x : StratData),
      x ∈ analyze_thought em gl en tree th ↔ ∃ t ∈ tree, x ∈ check_strategy em gl th en t) := by
  refine ⟨?_, ?_, ?_⟩
  · intro h
    simp [check_strategy, h]
  · intro x hx
    rw [check_strategy] at hx
    by_cases h : is_applicable d em gl th en = true
    · rw [if_pos h] at hx
      rcases List.mem_cons.mp hx with rfl | hx2
      · exact ⟨h, Or.inl rfl⟩
      · exact ⟨h, Or.inr (mem_check_forest.mp hx2)⟩
    · rw [if_neg h] at hx
      cases hx
  · intro tree x
    exact mem_check_forest

/-- Closed instance: an inapplicable root (level 1, energy 5) hides its
applicable level-2 child from the traversal. -/
theorem analyze_thought_pruning_witness :
    check_strategy "e" "g" "t" 5 (.node (strat_b 1) [.node (strat_b 2) []]) = [] ∧
    is_applicable (strat_b 2) "e" "g" "t" 5 = true :=
  ⟨(analyze_thought_pruning "e" "g" "t" 5 (strat_b 1) [.node (strat_b 2) []]).1 (by decide),
   by decide⟩

/-- The per-strategy results built by the think loop (helper). -/
lemma think_loop_results (flag : Bool) (th : String) :
    ∀ (l : List StratData) (stats : String → StratStats),
      (think_loop flag th l stats).1 = l.map (action_of th)
  | [], _ => rfl
  | s :: rest, stats => by
      simp only [think_loop, List.map_cons, List.cons.injEq, true_and]
      exact think_loop_results flag th rest _

/-- The statistics update of the think loop, per name (helper). -/
lemma think_loop_stats (flag : Bool) (th : String) (n : String) :
    ∀ (l : List StratData) (stats : String → StratStats),
      (think_loop flag th l stats).2 n =
        { uses := (stats n).uses + l.countP (fun s => s.name = n),
          success := (stats n).success +
            (if flag then l.countP (fun s => s.name = n) else 0),
          fail := (stats n).fail +
            (if flag then 0 else l.countP (fun s => s.name = n)) }
  | [], stats => by
      simp [think_loop, List.countP_nil]
  | s :: rest, stats => by
      simp only [think_loop]
      rw [think_loop_stats flag th n rest]
      by_cases hn : n = s.name
      · subst hn
        cases flag <;>
          simp [List.countP_cons, StratStats.mk.injEq] <;> omega
      · have hns : ¬ s.name = n := fun h => hn h.symm
        cases flag <;>
          simp [List.countP_cons, hn, hns, StratStats.mk.injEq]

/-- C5: in every `think(thought)` call, each applicable strategy adds one
action result whose energy cost is `level * 2`; its `uses` counter rises by
its number of occurrences and exactly one of `success`/`fail` rises by the
same amount, `success` being chosen iff the thought text contains (as a
substring, after normalization) some remembered goal; the status is
`PROCESSED` iff at least one strategy fired, and the remaining energy is
the decremented energy. -/
theorem think_counters_and_status (st : AgentState) (goals : List String)
    (tree : List StratTree) (stats : String → StratStats) (drop : Int) (thought : String) :
    ((think st goals tree stats drop thought).1.status = "PROCESSED" ↔
      ¬ analyze_thought st.emotion st.current_goal (max 0 (st.energy - drop)) tree thought
        = []) ∧
    (think st goals tree stats drop thought).1.actions =
      (analyze_thought st.emotion st.current_goal (max 0 (st.energy - drop)) tree
        thought).map (action_of thought) ∧
    (∀ s : StratData, (action_of thought s).energy_cost = s.level * 2) ∧
    (think st goals tree stats drop thought).1.remaining_energy = max 0 (st.energy - drop) ∧
    (∀ n : String,
      ((think st goals tree stats drop thought).2 n).uses = (stats n).uses +
        (analyze_thought st.emotion st.current_goal (max 0 (st.energy - drop)) tree
          thought).countP (fun s => s.name = n) ∧
      ((think st goals tree stats drop thought).2 n).success = (stats n).success +
        (if goals.any (fun g => keyword_in_text thought [g]) then
          (analyze_thought st.emotion st.current_goal (max 0 (st.energy - drop)) tree
            thought).countP (fun s => s.name = n) else 0) ∧
      ((think st goals tree stats drop thought).2 n).fail = (stats n).fail +
        (if goals.any (fun g => keyword_in_text thought [g]) then 0 else
          (analyze_thought st.emotion st.current_goal (max 0 (st.energy - drop)) tree
            thought).countP (fun s => s.name = n))) := by
  refine ⟨?_, ?_, fun s => rfl, rfl, ?_⟩
  · simp only [think, think_loop_results, List.isEmpty_eq_true, List.map_eq_nil_iff]
    by_cases h : analyze_thought st.emotion st.current_goal (max 0 (st.energy - drop))
        tree thought = []
    · simp [h]
    · simp [h]
  · simp only [think, think_loop_results]
  · intro n
    simp [think, think_loop_stats]

/-- Closed instance of the think contract on a one-strategy tree. -/
theorem think_counters_and_status_witness :
    ((think { emotion := "e", current_goal := "g", energy := 90 } ["t"]
        [.node (strat_b 1) []] (fun _ => ⟨0, 0, 0⟩) 2 "t").1.status = "PROCESSED" ↔
      ¬ analyze_thought "e" "g" (max 0 ((90 : Int) - 2)) [.node (strat_b 1) []] "t" = []) ∧
    (think { emotion := "e", current_goal := "g", energy := 90 } ["t"]
        [.node (strat_b 1) []] (fun _ => ⟨0, 0, 0⟩) 2 "t").1.actions =
      (analyze_thought "e" "g" (max 0 ((90 : Int) - 2)) [.node (strat_b 1) []] "t").map
        (action_of "t") ∧
    (∀ s : StratData, (action_of "t" s).energy_cost = s.level * 2) ∧
    (think { emotion := "e", current_goal := "g", energy := 90 } ["t"]
        [.node (strat_b 1) []] (fun _ => ⟨0, 0, 0⟩) 2 "t").1.remaining_energy =
      max 0 ((90 : Int) - 2) ∧
    (∀ n : String,
      ((think { emotion := "e", current_goal := "g", energy := 90 } ["t"]
          [.node (strat_b 1) []] (fun _ => ⟨0, 0, 0⟩) 2 "t").2 n).uses =
        ((fun _ => (⟨0, 0, 0⟩ : StratStats)) n).uses +
        (analyze_thought "e" "g" (max 0 ((90 : Int) - 2)) [.node (strat_b 1) []]
          "t").countP (fun s => s.name = n) ∧
      ((think { emotion := "e", current_goal := "g", energy := 90 } ["t"]
          [.node (strat_b 1) []] (fun _ => ⟨0, 0, 0⟩) 2 "t").2 n).success =
        ((fun _ => (⟨0, 0, 0⟩ : StratStats)) n).success +
        (if (["t"].any fun g => keyword_in_text "t" [g]) then
          (analyze_thought "e" "g" (max 0 ((90 : Int) - 2)) [.node (strat_b 1) []]
            "t").countP (fun s => s.name = n) else 0) ∧
      ((think { emotion := "e", current_goal := "g", energy := 90 } ["t"]
          [.node (strat_b 1) []] (fun _ => ⟨0, 0, 0⟩) 2 "t").2 n).fail =
        ((fun _ => (⟨0, 0, 0⟩ : StratStats)) n).fail +
        (if (["t"].any fun g => keyword_in_text "t" [g]) then 0 else
          (analyze_thought "e" "g" (max 0 ((90 : Int) - 2)) [.node (strat_b 1) []]
            "t").countP (fun s => s.name = n))) :=
  think_counters_and_status { emotion := "e", current_goal := "g", energy := 90 } ["t"]
    [.node (strat_b 1) []] (fun _ => ⟨0, 0, 0⟩) 2 "t"

/-- Position `i` is grouped at level `lvl` iff the strategy at `i` has that
level (helper). -/
lemma mem_by_level {ss : List StratData} {lvl i : Nat} :
    i ∈ by_level ss lvl ↔ ∃ s, ss.get? i = some s ∧ s.level = lvl := by
  unfold by_level
  rw [List.mem_filter, List.mem_range]
  constructor
  · rintro ⟨hlt, hdec⟩
    rw [decide_eq_true_eq, Option.map_eq_some'] at hdec
    obtain ⟨s, hs, hlvl⟩ := hdec
    exact ⟨s, hs, hlvl⟩
  · rintro ⟨s, hs, hlvl⟩
    refine ⟨?_, ?_⟩
    · exact List.get?_eq_some.mp hs |>.choose
    · rw [decide_eq_true_eq, Option.map_eq_some']
      exact ⟨s, hs, hlvl⟩

/-- A position lies in at most one level group (helper). -/
lemma by_level_level_unique {ss : List StratData} {l1 l2 i : Nat}
    (h1 : i ∈ by_level ss l1) (h2 : i ∈ by_level ss l2) : l1 = l2 := by
  obtain ⟨s1, hs1, hl1⟩ := mem_by_level.mp h1
  obtain ⟨s2, hs2, hl2⟩ := mem_by_level.mp h2
  rw [hs1] at hs2
  cases hs2
  omega

/-- The fold seeding of `max` never decreases (helper). -/
lemma foldl_max_init_le : ∀ (l : List Nat) (a : Nat), a ≤ l.foldl max a
  | [], _ => le_refl _
  | x :: l, a => le_trans (Nat.le_max_left a x) (foldl_max_init_le l (max a x))

/-- Every element bounds into the fold of `max` (helper). -/
lemma le_foldl_max : ∀ (l : List Nat) (a x : Nat), x ∈ l → x ≤ l.foldl max a
  | [], _, _, hx => absurd hx (List.not_mem_nil _)
  | y :: l, a, x, hx => by
      rcases List.mem_cons.mp hx with rfl | hx2
      · exact le_trans (Nat.le_max_right a x) (foldl_max_init_le l (max a x))
      · exact le_foldl_max l (max a y) x hx2

/-- Each occupied level is at most `max_level` (helper). -/
lemma by_level_le_max {ss : List StratData} {lvl i : Nat} (h : i ∈ by_level ss lvl) :
    lvl ≤ max_level ss := by
  obtain ⟨s, hs, hlvl⟩ := mem_by_level.mp h
  have hmem : s ∈ ss := List.get?_mem hs
  have : s.level ∈ ss.map StratData.level := List.mem_map_of_mem StratData.level hmem
  unfold max_level
  exact hlvl ▸ le_foldl_max _ 0 _ this

/-- Characterization of the `(parent, child)` pairs the builder appends
(helper). -/
lemma child_pairs_iff {ss : List StratData} {hier : Hierarchy} {p i : Nat}
    (hb : build_strategy_hierarchy ss = some hier) :
    (p, i) ∈ hier.child_pairs ↔
      ∃ lvl, 2 ≤ lvl ∧ i ∈ by_level ss lvl ∧ (by_level ss (lvl - 1)).head? = some p := by
  unfold build_strategy_hierarchy at hb
  by_cases hss : ss.isEmpty
  · rw [if_pos hss] at hb
    cases hb
  · rw [if_neg hss] at hb
    cases hb
    simp only [List.mem_flatMap, List.mem_filterMap]
    constructor
    · rintro ⟨lvl, hlvl, j, hj, hmap⟩
      rw [Option.map_eq_some'] at hmap
      obtain ⟨q, hq, heq⟩ := hmap
      cases heq
      exact ⟨lvl, (List.mem_range'_1.mp hlvl).1, hj, hq⟩
    · rintro ⟨lvl, h2, hi, hhead⟩
      have hmax : lvl ≤ max_level ss := by_level_le_max hi
      refine ⟨lvl, List.mem_range'_1.mpr ⟨h2, by omega⟩, i, hi, ?_⟩
      rw [hhead]
      rfl

/-- C2: after a build, the level-1 strategies are exactly the roots; every
strategy at level `L ≥ 2` is attached as a child of precisely the first
strategy found at level `L - 1` (never of any other parent), and when level
`L - 1` is unoccupied the level-`L` strategies are attached nowhere and are
not roots (unreachable, no error); in particular the `[L1 A, L2 B, L2 C]`
scenario attaches both `B` and `C` as children of `A`. -/
theorem build_hierarchy_single_parent (ss : List StratData) (hier : Hierarchy)
    (hb : build_strategy_hierarchy ss = some hier) :
    hier.roots = by_level ss 1 ∧
    (∀ L i, 2 ≤ L → i ∈ by_level ss L →
      (∀ p, ((p, i) ∈ hier.child_pairs ↔ (by_level ss (L - 1)).head? = some p)) ∧
      (by_level ss (L - 1) = [] → i ∉ hier.roots ∧ ∀ p, (p, i) ∉ hier.child_pairs)) ∧
    (build_strategy_hierarchy strat_abc).map Hierarchy.roots = some [0] ∧
    (build_strategy_hierarchy strat_abc).map (fun h => h.children_of 0) = some [1, 2] ∧
    (build_strategy_hierarchy strat_abc).map (fun h => h.children_of 1) = some [] ∧
    (build_strategy_hierarchy strat_abc).map (fun h => h.children_of 2) = some [] := by
  have hroots : hier.roots = by_level ss 1 := by
    unfold build_strategy_hierarchy at hb
    by_cases hss : ss.isEmpty
    · rw [if_pos hss] at hb
      cases hb
    · rw [if_neg hss] at hb
      cases hb
      rfl
  refine ⟨hroots, ?_, by decide, by decide, by decide, by decide⟩
  intro L i hL hi
  constructor
  · intro p
    rw [child_pairs_iff hb]
    constructor
    · rintro ⟨lvl, h2, hi2, hhead⟩
      have : lvl = L := by_level_level_unique hi2 hi
      exact this ▸ hhead
    · intro hhead
      exact ⟨L, hL, hi, hhead⟩
  · intro hempty
    constructor
    · rw [hroots]
      intro hmem
      have : L = 1 := by_level_level_unique hi hmem
      omega
    · intro p hp
      obtain ⟨lvl, h2, hi2, hhead⟩ := (child_pairs_iff hb).mp hp
      have : lvl = L := by_level_level_unique hi2 hi
      subst this
      rw [hempty] at hhead
      cases hhead

/-- Closed instance: in the `[L1 A, L2 B, L2 C]` scenario, position 1 (`B`)
is a child exactly of position 0 (`A`, the first level-1 strategy). -/
theorem build_hierarchy_single_parent_witness :
    (0, 1) ∈ (Hierarchy.mk [0] [(0, 1), (0, 2)]).child_pairs ↔
      (by_level strat_abc 1).head? = some 0 :=
  ((build_hierarchy_single_parent strat_abc (Hierarchy.mk [0] [(0, 1), (0, 2)])
    (by decide)).2.1 2 1 (by decide) (by decide)).1 0

/-- C9: `build_strategy_hierarchy` raises on the empty strategy list (the
`max()` of an empty key set), and completes without error on every
non-empty list. -/
theorem build_hierarchy_empty_raises :
    build_strategy_hierarchy ([] : List StratData) = none ∧
    ∀ ss : List StratData, ss ≠ [] → (build_strategy_hierarchy ss).isSome = true := by
  constructor
  · rfl
  · intro ss hss
    have hEmpty : ss.isEmpty = false := by
      cases ss with
      | nil => exact absurd rfl hss
      | cons a l => rfl
    unfold build_strategy_hierarchy
    rw [hEmpty]
    rfl

/-- Closed instance: the build errors on `[]` and succeeds on the three
scenario strategies. -/
theorem build_hierarchy_empty_raises_witness :
    build_strategy_hierarchy ([] : List StratData) = none ∧
    (build_strategy_hierarchy strat_abc).isSome = true :=
  ⟨build_hierarchy_empty_raises.1,
   build_hierarchy_empty_raises.2 strat_abc (by simp [strat_abc])⟩

/-- The length of a `filterMap` counts the hits (helper). -/
lemma length_filterMap_eq_countP {α β : Type} (g : α → Option β) :
    ∀ l : List α, (l.filterMap g).length = l.countP (fun x => (g x).isSome)
  | [] => rfl
  | a :: l => by
      rw [List.filterMap_cons, List.countP_cons]
      cases hg : g a with
      | none => simp [hg, length_filterMap_eq_countP g l]
      | some b => simp [hg, length_filterMap_eq_countP g l]

/-- C3: `evolve_strategies` synthesizes exactly one strategy per statistics
entry with `uses ≥ 3` and `success > fail` whose name resolves to an
existing strategy, and none otherwise; the synthesized strategy has level
`min(original + 1, 5)`, the original's trigger topics, the original's action
plan annotated as evolved, and the original's activation keywords plus
exactly the two fixed additions. -/
theorem evolve_strategies_spec (ver : String → Nat)
    (stats_items : List (String × StratStats)) (all : List StratData) :
    (evolve_strategies_new ver stats_items all).length =
      stats_items.countP (fun p =>
        decide (p.2.success > p.2.fail ∧ p.2.uses ≥ 3) &&
          (find_strategy_by_name all p.1).isSome) ∧
    (∀ n st orig, (n, st) ∈ stats_items → st.uses ≥ 3 → st.success > st.fail →
      find_strategy_by_name all n = some orig →
        mutate_strategy (ver n) orig ∈ evolve_strategies_new ver stats_items all) ∧
    (∀ v orig,
      (mutate_strategy v orig).level = min (orig.level + 1) 5 ∧
      (mutate_strategy v orig).trigger_topics = orig.trigger_topics ∧
      (mutate_strategy v orig).action_plan =
        orig.action_plan ++ " (эволюционировавший)" ∧
      (mutate_strategy v orig).activation_conditions.keywords =
        some (orig.activation_conditions.keywords.getD [] ++ ["рост", "обучение"])) := by
  refine ⟨?_, ?_, fun v orig => ⟨rfl, rfl, rfl, rfl⟩⟩
  · unfold evolve_strategies_new
    rw [length_filterMap_eq_countP]
    apply List.countP_congr
    intro p hp
    by_cases hcond : p.2.success > p.2.fail ∧ p.2.uses ≥ 3
    · simp [hcond]
    · simp [hcond]
  · intro n st orig hmem huses hsf hfind
    unfold evolve_strategies_new
    rw [List.mem_filterMap]
    refine ⟨(n, st), hmem, ?_⟩
    rw [if_pos ⟨hsf, huses⟩, hfind]
    rfl

/-- Closed instance: a strategy used 3 times with 2 successes and 1 failure
yields exactly one evolved strategy with the promised level and keywords. -/
theorem evolve_strategies_spec_witness :
    (evolve_strategies_new (fun _ => 7) [("s", ⟨3, 2, 1⟩)] [strat_s]).length =
      ([("s", (⟨3, 2, 1⟩ : StratStats))].countP (fun p =>
        decide (p.2.success > p.2.fail ∧ p.2.uses ≥ 3) &&
          (find_strategy_by_name [strat_s] p.1).isSome)) ∧
    mutate_strategy 7 strat_s ∈ evolve_strategies_new (fun _ => 7) [("s", ⟨3, 2, 1⟩)] [strat_s] ∧
    (mutate_strategy 7 strat_s).level = min (strat_s.level + 1) 5 ∧
    (mutate_strategy 7 strat_s).activation_conditions.keywords =
      some (strat_s.activation_conditions.keywords.getD [] ++ ["рост", "обучение"]) := by
  have h := evolve_strategies_spec (fun _ => 7) [("s", ⟨3, 2, 1⟩)] [strat_s]
  refine ⟨h.1, ?_, (h.2.2 7 strat_s).1, (h.2.2 7 strat_s).2.2.2⟩
  exact h.2.1 "s" ⟨3, 2, 1⟩ strat_s (by simp) (by decide) (by decide) (by decide)
